import Mathlib

/-!
Verification of the `send_email_message` management command
(`django_send_email/management/commands/send_email_message.py`).

The command is embedded shallowly: the ambient framework state (file
system, standard input, settings, the `validate_email` validator) is an
explicit environment record, the parsed CLI options are a record, the
interactive prompt answer is an explicit value, and the one effectful
call `EmailMessage(...).send(...)` is represented by the final
`Outcome.sent` value carrying exactly the arguments the source passes.
-/

namespace SendEmailMessage

/-- Ambient environment of one invocation: file system, stdin, the
Django settings used by the command, and the framework email validator
`validate_email` (modelled as a boolean predicate, since its regular
expression lives outside this repository). `admins` and `managers` are
the settings tuples of `(name, email)` pairs read by
`getattr(settings, l, ())`. -/
structure Env where
  fileExists : String → Bool
  readFile : String → Except String String
  stdin : String
  valid : String → Bool
  admins : List (String × String)
  managers : List (String × String)
  defaultFromEmail : String
  emailSubjectPrefixVal : String

/-- Recipient entries treated as group tokens:
`if recipient in ('ADMINS', 'MANAGERS')`. -/
def isGroupToken (s : String) : Bool :=
  s == "ADMINS" || s == "MANAGERS"

/-- `get_addresses = lambda l: [a[1] for a in getattr(settings, l, ())]`:
the second components of the settings tuple named `l` (only ever called
with "ADMINS" or "MANAGERS"; a missing setting is the empty tuple). -/
def getAddresses (env : Env) (l : String) : List String :=
  (if l == "ADMINS" then env.admins
   else if l == "MANAGERS" then env.managers
   else []).map Prod.snd

/-- Errors that abort `handle_send_mail` before the send, plus fuel
exhaustion of the embedded recipient loop (the Python loop can run
unboundedly when a settings tuple itself contains a token). -/
inductive StepError where
  | commandError (msg : String)
  | outOfFuel
deriving DecidableEq, Repr

/-- The `CommandError` text raised on an invalid address:
`'"{}" is not a valid email address'.format(recipient)`. -/
def invalidAddressMsg (a : String) : String :=
  "\x22" ++ a ++ "\x22 is not a valid email address"

/-- The in-place token expansion loop

```
for recipient in lst:
    if recipient in ('ADMINS', 'MANAGERS'):
        lst.remove(recipient)
        lst.extend(get_addresses(recipient))
```

embedded at the level of Python's list iterator: an index `i` advanced
by one each pass, stopping as soon as `i` reaches the current length.
`lst.remove(x)` removes the first occurrence of `x` (`List.erase`) and
`lst.extend` appends at the end, both visible to the ongoing iteration.
`fuel` bounds the number of passes. -/
def resolveLoop (env : Env) : Nat → Nat → List String → Except StepError (List String)
  | 0, _, _ => Except.error StepError.outOfFuel
  | fuel + 1, i, lst =>
    match lst[i]? with
    | none => Except.ok lst
    | some r =>
      if isGroupToken r then
        resolveLoop env fuel (i + 1) (lst.erase r ++ getAddresses env r)
      else
        resolveLoop env fuel (i + 1) lst

/-- Token expansion of one recipient list, starting the iterator at
index 0. -/
def resolveRecipients (env : Env) (fuel : Nat) (lst : List String) : Except StepError (List String) :=
  resolveLoop env fuel 0 lst

/-- The validation loop over one list: `validate_email` on each entry
in order, returning the first entry that fails (the source raises
`CommandError(invalidAddressMsg a)` for it), or `none` when every entry
passes. -/
def validateAddresses (valid : String → Bool) : List String → Option String
  | [] => none
  | a :: rest => if valid a then validateAddresses valid rest else some a

/-- Processing of one list inside
`for lst in (recipient_list, options['bcc'], options['cc'])`:
an empty (falsy) list is skipped (`if not lst: continue`), otherwise
tokens are expanded in place and the result is validated. -/
def processList (env : Env) (fuel : Nat) (lst : List String) : Except StepError (List String) :=
  if lst.isEmpty then Except.ok lst
  else
    match resolveRecipients env fuel lst with
    | Except.error e => Except.error e
    | Except.ok resolved =>
      match validateAddresses env.valid resolved with
      | some bad => Except.error (StepError.commandError (invalidAddressMsg bad))
      | none => Except.ok resolved

/-- Processing of `options['bcc']` / `options['cc']`, which are `None`
when the flag is absent. -/
def processOptList (env : Env) (fuel : Nat) : Option (List String) → Except StepError (Option (List String))
  | none => Except.ok none
  | some lst => (processList env fuel lst).map some

/-- `options[copy] = [a.strip() for a in options[copy].split(',')]`,
guarded by `if options[copy]:` — a `None` or empty (falsy) value is left
alone and is skipped by all later steps, which we model as `none`. -/
def splitCopy : Option String → Option (List String)
  | none => none
  | some s => if s.isEmpty then none else some ((s.splitOn ",").map String.trim)

/-- Resolution of the message body (source lines 93-102):

```
if os.path.isfile(message):
    try: message = open(message).read()
    except (IOError, OSError) as exc:
        raise CommandError('Error reading message file "{}": {}'...)
elif message == '-':
    message = sys.stdin.read()
    options['interactive'] = False
```

Returns the body text together with the (possibly forced off)
interactive flag. -/
def resolveBody (env : Env) (message : String) (interactive : Bool) : Except StepError (String × Bool) :=
  if env.fileExists message then
    match env.readFile message with
    | Except.ok contents => Except.ok (contents, interactive)
    | Except.error exc =>
      Except.error (StepError.commandError
        ("Error reading message file \x22" ++ message ++ "\x22: " ++ exc))
  else if message == "-" then
    Except.ok (env.stdin, false)
  else
    Except.ok (message, interactive)

/-- `CONFIRM_MESSAGE.format(**options)`. The source constant is a
triple-quoted string that begins with a newline (the line break right
after the opening quotes) and ends with a newline after the closing
banner; `recipient_list` and `cc` are comma-space joined
(`', '.join(options[lst] or [])`). -/
def confirmMessage (subject fromEmail : String) (recipientList cc : List String) (message : String) : String :=
  "\n---------- MESSAGE FOLLOWS ----------\n" ++
  "Subject: " ++ subject ++ "\n" ++
  "From: " ++ fromEmail ++ "\n" ++
  "To: " ++ String.intercalate ", " recipientList ++ "\n" ++
  "Cc: " ++ String.intercalate ", " cc ++ "\n" ++
  "\n" ++
  message ++ "\n" ++
  "------------ END MESSAGE ------------\n"

/-- The §6 layout as the specification words it: banner, header lines,
blank line, body, closing banner line — with nothing before the opening
banner. Kept separate from `confirmMessage` (the source constant) so
the two can be compared. -/
def specConfirmLayout (subject fromEmail : String) (recipientList cc : List String) (message : String) : String :=
  "---------- MESSAGE FOLLOWS ----------\n" ++
  "Subject: " ++ subject ++ "\n" ++
  "From: " ++ fromEmail ++ "\n" ++
  "To: " ++ String.intercalate ", " recipientList ++ "\n" ++
  "Cc: " ++ String.intercalate ", " cc ++ "\n" ++
  "\n" ++
  message ++ "\n" ++
  "------------ END MESSAGE ------------\n"

/-- The prompt decision `raw_input('Send email message? [Y/n] ').lower().startswith('n')`:
the answer is lowercased (character-wise, as Python's `str.lower` is on
all characters relevant here) and cancellation is whether the first
character of the result is `n`. -/
def promptCancels (response : String) : Bool :=
  match response.data.map Char.toLower with
  | [] => false
  | c :: _ => c == 'n'

/-- The answer delivered at the prompt: one line of input, or an
operator interrupt (`KeyboardInterrupt`), the only blocking point of
the command. -/
inductive PromptAnswer where
  | line (s : String)
  | interrupt
deriving DecidableEq, Repr

/-- Whether the prompt answer cancels the send: an interrupt, or a line
that `promptCancels`. -/
def declinesAnswer : PromptAnswer → Bool
  | PromptAnswer.interrupt => true
  | PromptAnswer.line s => promptCancels s

/-- The argparse wiring of `--raise-error` (short form `-r`):
`action='store_true', dest='fail_silently', default=False`, so the
`fail_silently` option is exactly whether the flag was given. -/
def failSilentlyOption (raiseErrorFlagPresent : Bool) : Bool :=
  raiseErrorFlagPresent

/-- Parsed CLI options as `handle_send_mail` receives them.
`noPrefixFlag` is the source's `noprefix` destination, `failSilently`
the `fail_silently` destination set by `--raise-error`, `bcc` and `cc`
the raw comma-separated flag values. -/
structure Opts where
  verbosity : Nat
  subject : String
  message : String
  recipient : List String
  interactive : Bool
  fromEmail : Option String
  failSilently : Bool
  noPrefixFlag : Bool
  bcc : Option String
  cc : Option String

/-- The arguments of the final
`EmailMessage(subject=..., body=..., from_email=..., to=..., bcc=..., cc=...)
.send(fail_silently=...)` call. -/
structure EmailRequest where
  subject : String
  body : String
  fromEmail : String
  toAddrs : List String
  bcc : Option (List String)
  cc : Option (List String)
  failSilently : Bool
deriving DecidableEq, Repr

/-- Result of one invocation: a raised `CommandError`, a
`sys.exit(code)` after writing `stderrMsg` to stderr, the send call
with its arguments (and the confirmation preview printed beforehand,
when one was), or exhaustion of the loop fuel. -/
inductive Outcome where
  | commandError (msg : String)
  | exited (code : Nat) (stderrMsg : String)
  | sent (req : EmailRequest) (shown : Option String)
  | outOfFuel
deriving DecidableEq, Repr

/-- Lifting a pre-send error to an invocation outcome. -/
def Outcome.ofErr : StepError → Outcome
  | StepError.commandError m => Outcome.commandError m
  | StepError.outOfFuel => Outcome.outOfFuel

/-- Whether the outcome is a raised `CommandError`. -/
def isCommandError : Outcome → Bool
  | Outcome.commandError _ => true
  | _ => false

/-- Whether the outcome reached the `EmailMessage(...).send(...)` call. -/
def isSent : Outcome → Bool
  | Outcome.sent _ _ => true
  | _ => false

/-- `Command.handle_send_mail` end to end: body resolution, per-list
token expansion and validation (recipients, then bcc, then cc), subject
prefixing and sender defaulting, the confirmation preview (printed when
`verbosity > 1 or options['interactive']`), the interactive prompt
(declining writes `Operation cancelled.\n` to stderr and exits 1, as
does a `KeyboardInterrupt` caught by `Command.handle`), and finally the
send call. -/
def handleSendMail (env : Env) (opts : Opts) (answer : PromptAnswer) (fuel : Nat) : Outcome :=
  match resolveBody env opts.message opts.interactive with
  | Except.error e => Outcome.ofErr e
  | Except.ok (body, interactive) =>
    match processList env fuel opts.recipient with
    | Except.error e => Outcome.ofErr e
    | Except.ok recipientList =>
      match processOptList env fuel (splitCopy opts.bcc) with
      | Except.error e => Outcome.ofErr e
      | Except.ok bccL =>
        match processOptList env fuel (splitCopy opts.cc) with
        | Except.error e => Outcome.ofErr e
        | Except.ok ccL =>
          let subjectFinal :=
            (if opts.noPrefixFlag then "" else env.emailSubjectPrefixVal) ++ opts.subject
          let fromFinal := opts.fromEmail.getD env.defaultFromEmail
          let req : EmailRequest :=
            { subject := subjectFinal, body := body, fromEmail := fromFinal,
              toAddrs := recipientList, bcc := bccL, cc := ccL,
              failSilently := opts.failSilently }
          let shown : Option String :=
            if opts.verbosity > 1 || interactive then
              some (confirmMessage subjectFinal fromFinal recipientList (ccL.getD []) body)
            else none
          if interactive then
            match answer with
            | PromptAnswer.interrupt => Outcome.exited 1 "Operation cancelled.\n"
            | PromptAnswer.line s =>
              if promptCancels s then Outcome.exited 1 "Operation cancelled.\n"
              else Outcome.sent req shown
          else Outcome.sent req shown

/-- A recipient entry that is not a group token. -/
def nonToken (a : String) : Bool :=
  ! isGroupToken a

deriving instance DecidableEq for Except

/-! ### Concrete fixtures used to evaluate the command -/

/-- A settings environment with the spec's ADMINS scenario, a default
sender, the stock Django subject prefix, and a plain
contains-an-at-sign validator standing in for a concrete
`validate_email` run. No message file exists. -/
def envW : Env where
  fileExists := fun _ => false
  readFile := fun _ => Except.error "unreadable"
  stdin := "stdin body"
  valid := fun a => a.data.contains '@'
  admins := [("root", "root@x.com"), ("ops", "ops@x.com")]
  managers := [("m", "mgr@x.com")]
  defaultFromEmail := "noreply@x.com"
  emailSubjectPrefixVal := "[Django] "

/-- An environment in which a file named "-" exists and is readable. -/
def envDashFile : Env where
  fileExists := fun s => s == "-"
  readFile := fun _ => Except.ok "FILE CONTENTS"
  stdin := "STDIN CONTENTS"
  valid := fun _ => true
  admins := []
  managers := []
  defaultFromEmail := "noreply@x.com"
  emailSubjectPrefixVal := "[Django] "

/-- An interactive invocation with a duplicated recipient, no
overriding flags. -/
def optsW : Opts where
  verbosity := 1
  subject := "Hello"
  message := "Hi there"
  recipient := ["a@x.com", "a@x.com"]
  interactive := true
  fromEmail := none
  failSilently := false
  noPrefixFlag := false
  bcc := none
  cc := none

/-- The send-call arguments produced by `envW`/`optsW`. -/
def reqW : EmailRequest where
  subject := "[Django] Hello"
  body := "Hi there"
  fromEmail := "noreply@x.com"
  toAddrs := ["a@x.com", "a@x.com"]
  bcc := none
  cc := none
  failSilently := false

/-- The confirmation preview printed by `envW`/`optsW`. -/
def shownW : Option String :=
  some (confirmMessage "[Django] Hello" "noreply@x.com"
    ["a@x.com", "a@x.com"] [] "Hi there")

/-- A non-interactive invocation carrying the `--raise-error` flag
(`failSilentlyOption true`). -/
def optsC2 : Opts where
  verbosity := 1
  subject := "s"
  message := "hello"
  recipient := ["a@x.com"]
  interactive := false
  fromEmail := none
  failSilently := failSilentlyOption true
  noPrefixFlag := true
  bcc := none
  cc := none

/-! ### Helper lemmas -/

theorem validateAddresses_eq_none (valid : String → Bool) (l : List String) :
    validateAddresses valid l = none ↔ ∀ a ∈ l, valid a = true := by
  induction l with
  | nil => simp [validateAddresses]
  | cons a rest ih =>
    by_cases h : valid a = true
    · simp [validateAddresses, h, ih]
    · simp [validateAddresses, h]

theorem validateAddresses_eq_some (valid : String → Bool) (l : List String) (e : String) :
    validateAddresses valid l = some e ↔
      valid e = false ∧ ∃ pre post, l = pre ++ e :: post ∧ ∀ a ∈ pre, valid a = true := by
  induction l with
  | nil =>
    simp only [validateAddresses]
    constructor
    · intro h; exact absurd h (by simp)
    · rintro ⟨-, pre, post, hsplit, -⟩
      exact absurd hsplit (by simp)
  | cons a rest ih =>
    by_cases h : valid a = true
    · have hstep : validateAddresses valid (a :: rest) = validateAddresses valid rest := by
        simp [validateAddresses, h]
      rw [hstep, ih]
      constructor
      · rintro ⟨he, pre, post, hsplit, hpre⟩
        refine ⟨he, a :: pre, post, by simp [hsplit], ?_⟩
        intro x hx
        rcases List.mem_cons.mp hx with hx | hx
        · exact hx ▸ h
        · exact hpre x hx
      · rintro ⟨he, pre, post, hsplit, hpre⟩
        cases pre with
        | nil =>
          simp only [List.nil_append] at hsplit
          obtain ⟨hae, -⟩ := List.cons.injEq .. ▸ hsplit
          exact absurd (hae ▸ h) (by simp [he])
        | cons b pre2 =>
          simp only [List.cons_append, List.cons.injEq] at hsplit
          obtain ⟨hab, hrest⟩ := hsplit
          refine ⟨he, pre2, post, hrest, ?_⟩
          intro x hx
          exact hpre x (List.mem_cons_of_mem b hx)
    · have hstep : validateAddresses valid (a :: rest) = some a := by
        simp [validateAddresses, h]
      rw [hstep]
      constructor
      · intro heq
        obtain rfl : a = e := Option.some.injEq .. ▸ heq
        exact ⟨Bool.not_eq_true _ ▸ h, [], rest, rfl, by simp⟩
      · rintro ⟨he, pre, post, hsplit, hpre⟩
        cases pre with
        | nil =>
          simp only [List.nil_append, List.cons.injEq] at hsplit
          exact congrArg some hsplit.1
        | cons b pre2 =>
          simp only [List.cons_append, List.cons.injEq] at hsplit
          have hb : valid b = true := hpre b (by simp)
          exact absurd (hsplit.1 ▸ hb) h

theorem filter_erase_token (r : String) (hr : isGroupToken r = true) (l : List String) :
    (l.erase r).filter nonToken = l.filter nonToken := by
  induction l with
  | nil => rfl
  | cons b bs ih =>
    rw [List.erase_cons]
    by_cases hb : b = r
    · subst hb
      simp [List.filter_cons, nonToken, hr]
    · have hbne : (b == r) = false := beq_eq_false_iff_ne.mpr hb
      simp only [hbne, Bool.false_eq_true, if_false, List.filter_cons, ih]

theorem resolveLoop_filter (env : Env) :
    ∀ fuel i lst out, resolveLoop env fuel i lst = Except.ok out →
      ∃ rest, out.filter nonToken = lst.filter nonToken ++ rest := by
  intro fuel
  induction fuel with
  | zero =>
    intro i lst out h
    exact absurd h (by simp [resolveLoop])
  | succ fuel ih =>
    intro i lst out h
    rw [resolveLoop] at h
    split at h
    · obtain rfl : lst = out := Except.ok.injEq .. ▸ h
      exact ⟨[], by simp⟩
    · rename_i r hget
      split at h
      · rename_i ht
        obtain ⟨rest, hrest⟩ := ih _ _ _ h
        refine ⟨(getAddresses env r).filter nonToken ++ rest, ?_⟩
        rw [hrest, List.filter_append, filter_erase_token r ht, List.append_assoc]
      · obtain ⟨rest, hrest⟩ := ih _ _ _ h
        exact ⟨rest, hrest⟩

theorem processList_ok (env : Env) (fuel : Nat) (lst out : List String)
    (h : processList env fuel lst = Except.ok out) :
    validateAddresses env.valid out = none ∧
    ∃ rest, out.filter nonToken = lst.filter nonToken ++ rest := by
  unfold processList at h
  split at h
  · rename_i hemp
    obtain rfl : lst = out := Except.ok.injEq .. ▸ h
    obtain rfl : lst = [] := List.isEmpty_iff.mp hemp
    exact ⟨rfl, [], rfl⟩
  · split at h
    · exact absurd h (by simp)
    · rename_i resolved hres
      split at h
      · exact absurd h (by simp)
      · rename_i hval
        obtain rfl : resolved = out := Except.ok.injEq .. ▸ h
        exact ⟨hval, resolveLoop_filter env fuel 0 lst _ hres⟩

theorem string_append_assoc (a b c : String) : a ++ b ++ c = a ++ (b ++ c) :=
  String.ext (by simp [List.append_assoc])

theorem char_toLower_eq_n_iff (c : Char) : c.toLower = 'n' ↔ (c = 'n' ∨ c = 'N') := by
  constructor
  · intro h
    unfold Char.toLower at h
    simp only [] at h
    by_cases hb : c.toNat ≥ 65 ∧ c.toNat ≤ 90
    · rw [if_pos hb] at h
      right
      obtain ⟨h1, h2⟩ := hb
      have hc : Char.ofNat c.toNat = c := Char.ofNat_toNat c
      set n := c.toNat with hn
      interval_cases n <;> first
        | exact absurd h (by decide)
        | (rw [← hc]; try decide)
    · rw [if_neg hb] at h
      left; exact h
  · intro h
    rcases h with h | h <;> subst h <;> decide

theorem processOptList_some (env : Env) (fuel : Nat) (lst l : List String)
    (h : processOptList env fuel (some lst) = Except.ok (some l)) :
    processList env fuel lst = Except.ok l := by
  simp only [processOptList] at h
  cases hp : processList env fuel lst with
  | error e => rw [hp] at h; simp [Except.map] at h
  | ok out =>
    rw [hp] at h
    simp only [Except.map, Except.ok.injEq, Option.some.injEq] at h
    exact congrArg Except.ok h

theorem handleSendMail_sent (env : Env) (opts : Opts) (answer : PromptAnswer) (fuel : Nat)
    (req : EmailRequest) (shown : Option String)
    (h : handleSendMail env opts answer fuel = Outcome.sent req shown) :
    processList env fuel opts.recipient = Except.ok req.toAddrs ∧
    processOptList env fuel (splitCopy opts.bcc) = Except.ok req.bcc ∧
    processOptList env fuel (splitCopy opts.cc) = Except.ok req.cc ∧
    req.subject = (if opts.noPrefixFlag then "" else env.emailSubjectPrefixVal) ++ opts.subject ∧
    req.fromEmail = opts.fromEmail.getD env.defaultFromEmail ∧
    req.failSilently = opts.failSilently := by
  unfold handleSendMail at h
  split at h
  · rename_i e heq1
    cases e <;> simp [Outcome.ofErr] at h
  · rename_i body interactive heq1
    split at h
    · rename_i e heq2
      cases e <;> simp [Outcome.ofErr] at h
    · rename_i recipientList heq2
      split at h
      · rename_i e heq3
        cases e <;> simp [Outcome.ofErr] at h
      · rename_i bccL heq3
        split at h
        · rename_i e heq4
          cases e <;> simp [Outcome.ofErr] at h
        · rename_i ccL heq4
          simp only [] at h
          split at h
          · split at h
            · simp at h
            · rename_i s hcase
              split at h
              · simp at h
              · cases h
                exact ⟨heq2, heq3, heq4, rfl, rfl, rfl⟩
          · cases h
            exact ⟨heq2, heq3, heq4, rfl, rfl, rfl⟩

/-! ### The claims -/

/-- C1: the claim says resolving group tokens removes each token and
appends the lookup result once per token occurrence, so
`["ADMINS", "ADMINS"]` (lookup `["root@x.com", "ops@x.com"]`) should
resolve to the lookup result appended twice. The code instead mutates
the list while iterating it: removing the first token shifts the second
token into the index just visited, the iteration skips it, and it
survives resolution — after which validation rejects the literal string
"ADMINS" as an invalid address. This theorem evaluates the code at that
input, exhibiting the divergence. -/
theorem c1_consecutive_tokens_skipped :
    resolveRecipients envW 10 ["ADMINS", "ADMINS"] =
      Except.ok ["ADMINS", "root@x.com", "ops@x.com"] ∧
    ["ADMINS", "root@x.com", "ops@x.com"] ≠
      ["root@x.com", "ops@x.com", "root@x.com", "ops@x.com"] ∧
    validateAddresses envW.valid ["ADMINS", "root@x.com", "ops@x.com"] = some "ADMINS" :=
  ⟨by decide, by decide, by decide⟩

/-- C2: the claim (and the source's own flag name and help text) says
`--raise-error` makes delivery failures propagate, i.e. `fail_silently`
is true only when the flag is absent. The argparse wiring is inverted:
the flag is `action='store_true'` into `dest='fail_silently'`, so
giving `--raise-error` makes the send call run with
`fail_silently=True` (failures swallowed), and omitting it runs with
`fail_silently=False`. This theorem evaluates an invocation carrying
the flag: the send is reached with `failSilently = true`. -/
theorem c2_raise_error_flag_silences :
    failSilentlyOption true = true ∧
    handleSendMail envW optsC2 (PromptAnswer.line "") 10 =
      Outcome.sent
        { subject := "s", body := "hello", fromEmail := "noreply@x.com",
          toAddrs := ["a@x.com"], bcc := none, cc := none, failSilently := true }
        none :=
  ⟨rfl, by decide⟩

/-- C3: validation of a list applies the validator to each entry in
order and fails naming exactly the first invalid entry (fail-fast);
when every entry is valid it raises nothing. `validateAddresses`
returns the address that the source wraps in
`CommandError(invalidAddressMsg e)`. -/
theorem c3_validate_fail_fast (valid : String → Bool) (lst : List String) :
    (validateAddresses valid lst = none ↔ ∀ a ∈ lst, valid a = true) ∧
    (∀ e, validateAddresses valid lst = some e ↔
      valid e = false ∧ ∃ pre post, lst = pre ++ e :: post ∧ ∀ a ∈ pre, valid a = true) :=
  ⟨validateAddresses_eq_none valid lst, fun e => validateAddresses_eq_some valid lst e⟩

/-- C4: whenever the send call is reached, every address in the to, cc
and bcc lists passed to it satisfies the validator, and the non-token
input entries are preserved at the front of each list in their original
order and multiplicity (group expansion only appends). -/
theorem c4_send_invariant (env : Env) (opts : Opts) (answer : PromptAnswer) (fuel : Nat)
    (req : EmailRequest) (shown : Option String)
    (h : handleSendMail env opts answer fuel = Outcome.sent req shown) :
    (∀ a ∈ req.toAddrs, env.valid a = true) ∧
    (∃ rest, req.toAddrs.filter nonToken = opts.recipient.filter nonToken ++ rest) ∧
    (∀ lst l, splitCopy opts.bcc = some lst → req.bcc = some l →
      (∀ a ∈ l, env.valid a = true) ∧
      ∃ rest, l.filter nonToken = lst.filter nonToken ++ rest) ∧
    (∀ lst l, splitCopy opts.cc = some lst → req.cc = some l →
      (∀ a ∈ l, env.valid a = true) ∧
      ∃ rest, l.filter nonToken = lst.filter nonToken ++ rest) := by
  obtain ⟨hto, hbcc, hcc, -, -, -⟩ := handleSendMail_sent env opts answer fuel req shown h
  obtain ⟨hval, hord⟩ := processList_ok env fuel _ _ hto
  refine ⟨(validateAddresses_eq_none env.valid req.toAddrs).mp hval, hord, ?_, ?_⟩
  · intro lst l hs hl
    rw [hs, hl] at hbcc
    obtain ⟨hval2, hord2⟩ := processList_ok env fuel _ _ (processOptList_some env fuel lst l hbcc)
    exact ⟨(validateAddresses_eq_none env.valid l).mp hval2, hord2⟩
  · intro lst l hs hl
    rw [hs, hl] at hcc
    obtain ⟨hval2, hord2⟩ := processList_ok env fuel _ _ (processOptList_some env fuel lst l hcc)
    exact ⟨(validateAddresses_eq_none env.valid l).mp hval2, hord2⟩

/-- C4 witness: a run of the command on `envW`/`optsW` reaches the send
with all addresses valid and the duplicated input preserved. -/
theorem c4_witness :
    (∀ a ∈ reqW.toAddrs, envW.valid a = true) ∧
    (∃ rest, reqW.toAddrs.filter nonToken = optsW.recipient.filter nonToken ++ rest) ∧
    (∀ lst l, splitCopy optsW.bcc = some lst → reqW.bcc = some l →
      (∀ a ∈ l, envW.valid a = true) ∧
      ∃ rest, l.filter nonToken = lst.filter nonToken ++ rest) ∧
    (∀ lst l, splitCopy optsW.cc = some lst → reqW.cc = some l →
      (∀ a ∈ l, envW.valid a = true) ∧
      ∃ rest, l.filter nonToken = lst.filter nonToken ++ rest) :=
  c4_send_invariant envW optsW (PromptAnswer.line "y") 30 reqW shownW (by decide)

/-- C5 counterexample: the claim says a message argument of "-" always
reads standard input and disables confirmation. In an environment where
a file named "-" exists, the file branch wins: the body is the file's
contents and the interactive flag is untouched, refuting the claim at
this input. -/
theorem c5_counterexample :
    resolveBody envDashFile "-" true = Except.ok ("FILE CONTENTS", true) ∧
    resolveBody envDashFile "-" true ≠ Except.ok (envDashFile.stdin, false) :=
  ⟨rfl, by decide⟩

/-- C5 amended: when no file named "-" exists, a message argument of
"-" reads all of standard input as the body and forces interactive
confirmation off, regardless of the `--no-input` flag. -/
theorem c5_stdin_marker (env : Env) (interactive : Bool)
    (h : env.fileExists "-" = false) :
    resolveBody env "-" interactive = Except.ok (env.stdin, false) := by
  simp [resolveBody, h]

/-- C5 witness: on `envW` (no files exist) the marker reads stdin and
disables confirmation even though `interactive` came in true. -/
theorem c5_witness : resolveBody envW "-" true = Except.ok (envW.stdin, false) :=
  c5_stdin_marker envW true (by decide)

/-- C6: when the send call is reached, the from address is the explicit
flag value when one was given, else the configured default sender; the
subject is the configured prefix concatenated directly before the given
subject, or the given subject unchanged under `--noprefix`. -/
theorem c6_defaults (env : Env) (opts : Opts) (answer : PromptAnswer) (fuel : Nat)
    (req : EmailRequest) (shown : Option String)
    (h : handleSendMail env opts answer fuel = Outcome.sent req shown) :
    req.fromEmail = (match opts.fromEmail with
      | some f => f
      | none => env.defaultFromEmail) ∧
    req.subject = (if opts.noPrefixFlag then opts.subject
      else env.emailSubjectPrefixVal ++ opts.subject) := by
  obtain ⟨-, -, -, hsub, hfrom, -⟩ := handleSendMail_sent env opts answer fuel req shown h
  constructor
  · rw [hfrom]; cases opts.fromEmail <;> rfl
  · rw [hsub]; by_cases hn : opts.noPrefixFlag <;> simp [hn]

/-- C6 witness: on `envW`/`optsW` (no from flag, no `--noprefix`) the
sent request uses the default sender and the prefixed subject. -/
theorem c6_witness :
    reqW.fromEmail = (match optsW.fromEmail with
      | some f => f
      | none => envW.defaultFromEmail) ∧
    reqW.subject = (if optsW.noPrefixFlag then optsW.subject
      else envW.emailSubjectPrefixVal ++ optsW.subject) :=
  c6_defaults envW optsW (PromptAnswer.line "y") 30 reqW shownW (by decide)

/-- C7 counterexample: the claim says the preview is exactly the §6
layout with nothing before the opening banner, but the source constant
begins with a newline (the line break after the opening triple quote),
so at any concrete request the preview differs from that layout. -/
theorem c7_counterexample :
    confirmMessage "s" "f@x.com" ["t@x.com"] [] "body" ≠
      specConfirmLayout "s" "f@x.com" ["t@x.com"] [] "body" := by
  decide

/-- C7 amended: the preview is exactly one newline followed by the §6
layout: banner line, Subject/From/To/Cc lines with To and Cc
comma-space joined, a blank line, the body, and the closing banner line
with its terminating newline — nothing else. -/
theorem c7_preview_layout (subject fromEmail : String) (recipientList cc : List String)
    (message : String) :
    confirmMessage subject fromEmail recipientList cc message =
      "\n" ++ specConfirmLayout subject fromEmail recipientList cc message := by
  have h1 : ("\n---------- MESSAGE FOLLOWS ----------\n" : String)
      = "\n" ++ "---------- MESSAGE FOLLOWS ----------\n" := rfl
  simp only [confirmMessage, specConfirmLayout, h1, string_append_assoc]

/-- C8: if the body resolution leaves the invocation interactive, the
prompt answer declines (a line starting the cancellation or an operator
interrupt), and the run neither raised a `CommandError` nor ran out of
loop fuel, then the process exits with code 1 after writing
"Operation cancelled." to stderr, and the send call is never reached. -/
theorem c8_cancelled (env : Env) (opts : Opts) (answer : PromptAnswer) (fuel : Nat)
    (body : String)
    (hb : resolveBody env opts.message opts.interactive = Except.ok (body, true))
    (hd : declinesAnswer answer = true)
    (hc : isCommandError (handleSendMail env opts answer fuel) = false)
    (hf : handleSendMail env opts answer fuel ≠ Outcome.outOfFuel) :
    handleSendMail env opts answer fuel = Outcome.exited 1 "Operation cancelled.\n" ∧
    isSent (handleSendMail env opts answer fuel) = false := by
  rcases hp : processList env fuel opts.recipient with e | recipientList
  · have hrun : handleSendMail env opts answer fuel = Outcome.ofErr e := by
      simp [handleSendMail, hb, hp]
    cases e with
    | commandError m => rw [hrun] at hc; simp [isCommandError, Outcome.ofErr] at hc
    | outOfFuel => exact absurd (hrun.trans rfl) hf
  · rcases hq : processOptList env fuel (splitCopy opts.bcc) with e | bccL
    · have hrun : handleSendMail env opts answer fuel = Outcome.ofErr e := by
        simp [handleSendMail, hb, hp, hq]
      cases e with
      | commandError m => rw [hrun] at hc; simp [isCommandError, Outcome.ofErr] at hc
      | outOfFuel => exact absurd (hrun.trans rfl) hf
    · rcases hr : processOptList env fuel (splitCopy opts.cc) with e | ccL
      · have hrun : handleSendMail env opts answer fuel = Outcome.ofErr e := by
          simp [handleSendMail, hb, hp, hq, hr]
        cases e with
        | commandError m => rw [hrun] at hc; simp [isCommandError, Outcome.ofErr] at hc
        | outOfFuel => exact absurd (hrun.trans rfl) hf
      · cases answer with
        | interrupt =>
          have hrun : handleSendMail env opts PromptAnswer.interrupt fuel
              = Outcome.exited 1 "Operation cancelled.\n" := by
            simp [handleSendMail, hb, hp, hq, hr]
          exact ⟨hrun, by rw [hrun]; rfl⟩
        | line s =>
          simp only [declinesAnswer] at hd
          have hrun : handleSendMail env opts (PromptAnswer.line s) fuel
              = Outcome.exited 1 "Operation cancelled.\n" := by
            simp [handleSendMail, hb, hp, hq, hr, hd]
          exact ⟨hrun, by rw [hrun]; rfl⟩

/-- C8 witness: on `envW`/`optsW`, answering "no" at the prompt exits
with code 1 and the cancellation message, without sending. -/
theorem c8_witness :
    handleSendMail envW optsW (PromptAnswer.line "no") 30
      = Outcome.exited 1 "Operation cancelled.\n" ∧
    isSent (handleSendMail envW optsW (PromptAnswer.line "no") 30) = false :=
  c8_cancelled envW optsW (PromptAnswer.line "no") 30 "Hi there"
    (by decide) (by decide) (by decide) (by decide)

/-- C9: the file-path interpretation of the message argument takes
precedence over the stdin marker: when a readable file named "-"
exists, the body is that file's contents and the interactive flag is
left unchanged (stdin is not consulted: the result does not mention
it). -/
theorem c9_file_precedence (env : Env) (interactive : Bool) (contents : String)
    (h1 : env.fileExists "-" = true) (h2 : env.readFile "-" = Except.ok contents) :
    resolveBody env "-" interactive = Except.ok (contents, interactive) := by
  simp [resolveBody, h1, h2]

/-- C9 witness: on `envDashFile` the message "-" is read as the file's
contents and confirmation stays enabled. -/
theorem c9_witness : resolveBody envDashFile "-" true = Except.ok ("FILE CONTENTS", true) :=
  c9_file_precedence envDashFile true "FILE CONTENTS" (by decide) (by decide)

/-- C10: the confirmation prompt is default-yes: the answer cancels
exactly when it starts with the letter "n" or "N" (the source lowercases
the answer and tests for a leading "n"); an empty answer or any other
text confirms. -/
theorem c10_default_yes (s : String) :
    promptCancels s = true ↔ (∃ t, s.data = 'n' :: t) ∨ (∃ t, s.data = 'N' :: t) := by
  cases hs : s.data with
  | nil => simp [promptCancels, hs]
  | cons c cs =>
    simp only [promptCancels, hs, List.map_cons]
    rw [beq_iff_eq, char_toLower_eq_n_iff]
    constructor
    · rintro (rfl | rfl)
      · exact Or.inl ⟨cs, rfl⟩
      · exact Or.inr ⟨cs, rfl⟩
    · rintro (⟨t, ht⟩ | ⟨t, ht⟩) <;>
        obtain ⟨h1, -⟩ := List.cons.injEq .. ▸ ht
      · exact Or.inl h1
      · exact Or.inr h1

end SendEmailMessage
